import Mathlib

/-!
Verification of the Quick Environment Switcher core (src/envswitch.py).

The profile store and the switch planner are embedded shallowly:
timestamps are opaque strings (ISO-8601 in the source, produced by
datetime.now().isoformat()), path resolution and filesystem existence
checks are passed in as explicit function parameters, and the platform
test sys.platform == win32 is an explicit boolean.  Persistence is
whole-collection read-modify-write in the source, so every operation is
modelled as a pure function from the loaded state to the saved state.
-/

namespace EnvSwitch

/-- One stored environment profile: the JSON object built in
add_environment (src/envswitch.py, lines 79-90).  env_vars is a Python
dict with insertion order preserved, modelled as an association list. -/
structure Environment where
  name : String
  project_path : String
  python_env : Option String
  node_version : Option String
  env_vars : List (String × String)
  shell_commands : List String
  description : String
  created : String
  last_used : Option String
  use_count : Nat
deriving Repr, DecidableEq

/-- The persisted profile-collection document, environments.json. -/
structure EnvData where
  environments : List Environment
deriving Repr, DecidableEq

/-- One record of the history document, history.json. -/
structure HistoryEntry where
  environment : String
  timestamp : String
deriving Repr, DecidableEq

/-- Python str.lower(): lowercase the string characterwise.  Stated as a
map over the character list, which is definitionally what
String.toLower computes, but in a form the kernel can evaluate. -/
def pyLower (s : String) : String :=
  ⟨s.data.map Char.toLower⟩

/-- The case-insensitive name comparison used throughout the source:
env["name"].lower() == name.lower(). -/
def nameMatches (queried : String) (e : Environment) : Bool :=
  pyLower e.name == pyLower queried

/-- add_environment (src/envswitch.py, lines 65-95).  resolve stands for
Path(project_path).resolve(); now stands for datetime.now().isoformat().
Returns the Python boolean result together with the collection as
persisted after the call. -/
def add_environment (name project_path : String)
    (python_env node_version : Option String)
    (env_vars : Option (List (String × String)))
    (shell_commands : Option (List String))
    (description : String)
    (resolve : String → String) (now : String)
    (data : EnvData) : Bool × EnvData :=
  if data.environments.any (nameMatches name) then
    (false, data)
  else
    (true, ⟨data.environments ++
      [{ name := name
         project_path := resolve project_path
         python_env := python_env
         node_version := node_version
         env_vars := env_vars.getD []
         shell_commands := shell_commands.getD []
         description := description
         created := now
         last_used := none
         use_count := 0 }]⟩)

/-- get_environment (src/envswitch.py, lines 98-106): first profile whose
name matches case-insensitively, else None.  It only loads the
collection and never saves, so it returns no new state. -/
def get_environment (name : String) (data : EnvData) : Option Environment :=
  data.environments.find? (nameMatches name)

/-- The deletion loop of delete_environment (lines 128-134): remove the
first case-insensitive match, or report that none exists. -/
def removeFirstMatch (name : String) : List Environment → Option (List Environment)
  | [] => none
  | e :: rest =>
    if nameMatches name e then some rest
    else (removeFirstMatch name rest).map (fun l => e :: l)

/-- delete_environment (src/envswitch.py, lines 124-137). -/
def delete_environment (name : String) (data : EnvData) : Bool × EnvData :=
  match removeFirstMatch name data.environments with
  | some l => (true, ⟨l⟩)
  | none => (false, data)

/-- The usage-statistics loop of switch_environment (lines 149-155): the
first profile matching the requested name gets last_used set to the
current time and use_count incremented, and the loop breaks there. -/
def update_stats (name now : String) : List Environment → List Environment
  | [] => []
  | e :: rest =>
    if nameMatches name e then
      { e with last_used := some now, use_count := e.use_count + 1 } :: rest
    else
      e :: update_stats name now rest

/-- Python list slicing l[s:] for an integer start s: a negative start
counts from the end of the list, clamped at the front; a non-negative
start drops that many leading elements. -/
def pySliceFrom (s : Int) (l : List α) : List α :=
  if s < 0 then l.drop (l.length - (-s).toNat) else l.drop s.toNat

/-- log_switch (src/envswitch.py, lines 201-215): append one record for
the requested name with a fresh timestamp, then keep only the last 100
entries, history["switches"][-100:]. -/
def log_switch (env_name now : String) (history : List HistoryEntry) :
    List HistoryEntry :=
  pySliceFrom (-100) (history ++ [{ environment := env_name, timestamp := now }])

/-- get_history (src/envswitch.py, lines 218-224):
history["switches"][-limit:]. -/
def get_history (limit : Int) (history : List HistoryEntry) : List HistoryEntry :=
  pySliceFrom (-limit) history

/-- The platform-dependent activation script path (lines 170-175): under
Windows, Scripts/activate.bat with a fallback to Scripts/Activate.ps1
when the batch file is absent; elsewhere bin/activate. -/
def activation_script (p : String) (isWin32 : Bool) (fsExists : String → Bool) :
    String :=
  if isWin32 then
    if fsExists (p ++ "\\Scripts\\activate.bat") then p ++ "\\Scripts\\activate.bat"
    else p ++ "\\Scripts\\Activate.ps1"
  else p ++ "/bin/activate"

/-- The Python-environment activation section of switch_environment
(lines 166-182): a comment plus an invocation line, emitted only when
python_env is set to a non-empty path, that path exists, and the resolved
activation script exists; otherwise nothing, silently. -/
def activation_lines (env : Environment) (isWin32 : Bool)
    (fsExists : String → Bool) : List String :=
  match env.python_env with
  | none => []
  | some p =>
    if p.isEmpty then []
    else if fsExists p then
      if fsExists (activation_script p isWin32 fsExists) then
        ["# Activate Python environment",
         if isWin32 then activation_script p isWin32 fsExists
         else "source " ++ activation_script p isWin32 fsExists]
      else []
    else []

/-- One variable-assignment line (lines 188-191): set KEY=VALUE under
Windows, export KEY="VALUE" elsewhere. -/
def export_line (isWin32 : Bool) (kv : String × String) : String :=
  if isWin32 then "set " ++ kv.1 ++ "=" ++ kv.2
  else "export " ++ kv.1 ++ "=\"" ++ kv.2 ++ "\""

/-- The command-generation part of switch_environment (lines 160-198):
directory change, optional activation section, optional variable
section, optional custom-command section, in that order. -/
def generate_commands (env : Environment) (isWin32 : Bool)
    (fsExists : String → Bool) : List String :=
  ("cd " ++ env.project_path) ::
    (activation_lines env isWin32 fsExists ++
      (if env.env_vars.isEmpty then []
       else "# Set environment variables" :: env.env_vars.map (export_line isWin32)) ++
      (if env.shell_commands.isEmpty then []
       else "# Custom commands" :: env.shell_commands))

/-- switch_environment (src/envswitch.py, lines 140-198).  The source
reads datetime.now() twice, once for the statistics update and once
inside log_switch, hence the two time parameters nowStats and nowLog.
Returns the generated command list (none when the profile is missing)
together with the persisted collection and history after the call. -/
def switch_environment (name nowStats nowLog : String) (isWin32 : Bool)
    (fsExists : String → Bool) (data : EnvData)
    (history : List HistoryEntry) :
    Option (List String) × EnvData × List HistoryEntry :=
  match get_environment name data with
  | none => (none, data, history)
  | some env =>
    (some (generate_commands env isWin32 fsExists),
     ⟨update_stats name nowStats data.environments⟩,
     log_switch name nowLog history)

/-- One switch invocation for iterated-use statements: the name variant
the caller passes and the two datetime.now() readings of that call. -/
structure SwitchCall where
  variant : String
  nowStats : String
  nowLog : String
deriving Repr, DecidableEq

/-- Run a sequence of switch_environment calls, threading the persisted
collection and history, and collect the result of each call. -/
def run_switches (isWin32 : Bool) (fsExists : String → Bool) :
    List SwitchCall → EnvData × List HistoryEntry →
    List (Option (List String)) × EnvData × List HistoryEntry
  | [], st => ([], st)
  | c :: cs, st =>
    let r := switch_environment c.variant c.nowStats c.nowLog isWin32 fsExists st.1 st.2
    let rest := run_switches isWin32 fsExists cs r.2
    (r.1 :: rest.1, rest.2)

/-- The cumulative effect of a call sequence on the mutable
fields: each call stamps last_used and increments use_count. -/
def apply_calls (p : Environment) : List SwitchCall → Environment
  | [] => p
  | c :: cs =>
    apply_calls { p with last_used := some c.nowStats, use_count := p.use_count + 1 } cs

/-- Searching a concatenation finds nothing in a prefix where the
predicate is everywhere false. -/
theorem find?_append_of_forall_false {α : Type} {p : α → Bool} {l₁ l₂ : List α}
    (h : ∀ e ∈ l₁, p e = false) :
    List.find? p (l₁ ++ l₂) = List.find? p l₂ := by
  induction l₁ with
  | nil => rfl
  | cons a l ih =>
    have ha : p a = false := h a (by simp)
    simp only [List.cons_append, List.find?_cons, ha]
    exact ih (fun e he => h e (by simp [he]))

/-- C1: for every valid name, project path and optional fields, a
successful addProfile followed by getProfile under any case variant of
the name returns a profile with use_count 0, last_used null,
project_path the resolved input path, and created stamped to the
creation time. -/
theorem C1_add_then_get
    (name project_path : String) (python_env node_version : Option String)
    (env_vars : Option (List (String × String)))
    (shell_commands : Option (List String)) (description : String)
    (resolve : String → String) (now : String)
    (data : EnvData) (variant : String)
    (hfresh : ∀ e ∈ data.environments, pyLower e.name ≠ pyLower name)
    (hvar : pyLower variant = pyLower name) :
    ∃ env,
      get_environment variant
        (add_environment name project_path python_env node_version env_vars
          shell_commands description resolve now data).2 = some env ∧
      env.use_count = 0 ∧ env.last_used = none ∧
      env.project_path = resolve project_path ∧ env.created = now := by
  have hguard : data.environments.any (nameMatches name) = false := by
    rw [List.any_eq_false]
    intro e he
    simp only [nameMatches, beq_iff_eq]
    exact hfresh e he
  refine ⟨{ name := name, project_path := resolve project_path,
            python_env := python_env, node_version := node_version,
            env_vars := env_vars.getD [], shell_commands := shell_commands.getD [],
            description := description, created := now, last_used := none,
            use_count := 0 }, ?_, rfl, rfl, rfl, rfl⟩
  unfold add_environment
  rw [if_neg (by simp [hguard])]
  unfold get_environment
  rw [find?_append_of_forall_false (fun e he => by
    simp only [nameMatches, hvar, beq_eq_false_iff_ne]
    exact hfresh e he)]
  simp [List.find?_cons, nameMatches, hvar]

/-- C1 instantiated: adding the profile Demo to an empty store and
fetching it back as dEMO. -/
theorem C1_witness :
    ∃ env,
      get_environment "dEMO"
        (add_environment "Demo" "proj" none none none none "" id "t0" ⟨[]⟩).2 =
        some env ∧
      env.use_count = 0 ∧ env.last_used = none ∧
      env.project_path = id "proj" ∧ env.created = "t0" :=
  C1_add_then_get "Demo" "proj" none none none none "" id "t0" ⟨[]⟩ "dEMO"
    (by simp) (by decide)

/-- C2: when the store already holds a profile whose case-folded name
equals the case-folded requested name, addProfile fails and the
persisted collection is exactly the collection before the call. -/
theorem C2_duplicate_add_fails
    (name project_path : String) (python_env node_version : Option String)
    (env_vars : Option (List (String × String)))
    (shell_commands : Option (List String)) (description : String)
    (resolve : String → String) (now : String)
    (data : EnvData) (e : Environment)
    (he : e ∈ data.environments) (hcollide : pyLower e.name = pyLower name) :
    add_environment name project_path python_env node_version env_vars
      shell_commands description resolve now data = (false, data) := by
  have hguard : data.environments.any (nameMatches name) = true :=
    List.any_eq_true.mpr ⟨e, he, by simp [nameMatches, hcollide]⟩
  simp [add_environment, hguard]

/-- C2 instantiated: adding foo over an existing Foo fails and leaves
the stored profile intact. -/
theorem C2_witness :
    add_environment "foo" "q" none none none none "" id "t1"
      ⟨[{ name := "Foo", project_path := "p", python_env := none,
          node_version := none, env_vars := [], shell_commands := [],
          description := "", created := "t0", last_used := none,
          use_count := 0 }]⟩ =
    (false,
     ⟨[{ name := "Foo", project_path := "p", python_env := none,
         node_version := none, env_vars := [], shell_commands := [],
         description := "", created := "t0", last_used := none,
         use_count := 0 }]⟩) :=
  C2_duplicate_add_fails "foo" "q" none none none none "" id "t1" _
    { name := "Foo", project_path := "p", python_env := none,
      node_version := none, env_vars := [], shell_commands := [],
      description := "", created := "t0", last_used := none, use_count := 0 }
    (by simp) (by decide)

/-- The statistics loop walks past a prefix where no name matches. -/
theorem update_stats_append_of_forall_false (v now : String)
    (l₁ l₂ : List Environment) (h : ∀ e ∈ l₁, nameMatches v e = false) :
    update_stats v now (l₁ ++ l₂) = l₁ ++ update_stats v now l₂ := by
  induction l₁ with
  | nil => rfl
  | cons a l ih =>
    have ha : nameMatches v a = false := h a (by simp)
    simp only [List.cons_append, update_stats, ha]
    simp [ih (fun e he => h e (by simp [he]))]

/-- apply_calls never changes the stored name. -/
theorem apply_calls_name (calls : List SwitchCall) :
    ∀ p : Environment, (apply_calls p calls).name = p.name := by
  induction calls with
  | nil => intro p; rfl
  | cons c cs ih => intro p; simpa [apply_calls] using ih _

/-- apply_calls adds one use per call. -/
theorem apply_calls_use_count (calls : List SwitchCall) :
    ∀ p : Environment, (apply_calls p calls).use_count =
      p.use_count + calls.length := by
  induction calls with
  | nil => intro p; rfl
  | cons c cs ih =>
    intro p
    rw [apply_calls, ih]
    simp
    omega

/-- apply_calls leaves the statistics timestamp of the last call. -/
theorem apply_calls_last_used (c : SwitchCall) (calls : List SwitchCall) :
    ∀ p : Environment, calls.getLast? = some c →
      (apply_calls p calls).last_used = some c.nowStats := by
  induction calls with
  | nil => intro p h; simp at h
  | cons a cs ih =>
    intro p h
    cases cs with
    | nil =>
      simp only [List.getLast?_singleton, Option.some.injEq] at h
      simp [apply_calls, h]
    | cons b bs =>
      rw [List.getLast?_cons_cons] at h
      exact ih { p with last_used := some a.nowStats,
                        use_count := p.use_count + 1 } h

/-- Running a call sequence against a store whose only case-insensitive
match for the target name sits at the end keeps that shape, applies the
per-call statistics update cumulatively, and every call succeeds. -/
theorem run_switches_store (isWin32 : Bool) (fsExists : String → Bool)
    (name : String) (pre : List Environment)
    (hpre : ∀ e ∈ pre, pyLower e.name ≠ pyLower name)
    (calls : List SwitchCall) :
    ∀ (p : Environment) (history : List HistoryEntry),
      pyLower p.name = pyLower name →
      (∀ k ∈ calls, pyLower k.variant = pyLower name) →
      (run_switches isWin32 fsExists calls (⟨pre ++ [p]⟩, history)).2.1 =
        ⟨pre ++ [apply_calls p calls]⟩ ∧
      ∀ r ∈ (run_switches isWin32 fsExists calls (⟨pre ++ [p]⟩, history)).1,
        r.isSome := by
  induction calls with
  | nil =>
    intro p history hp hcalls
    simp [run_switches, apply_calls]
  | cons c cs ih =>
    intro p history hp hcalls
    have hc : pyLower c.variant = pyLower name := hcalls c (by simp)
    have hprec : ∀ e ∈ pre, nameMatches c.variant e = false := fun e he => by
      simp only [nameMatches, hc, beq_eq_false_iff_ne]
      exact hpre e he
    have hget : get_environment c.variant ⟨pre ++ [p]⟩ = some p := by
      unfold get_environment
      rw [show (⟨pre ++ [p]⟩ : EnvData).environments = pre ++ [p] from rfl,
        find?_append_of_forall_false hprec]
      simp [List.find?_cons, nameMatches, hc, hp]
    have hupd : update_stats c.variant c.nowStats (pre ++ [p]) =
        pre ++ [{ p with last_used := some c.nowStats,
                         use_count := p.use_count + 1 }] := by
      rw [update_stats_append_of_forall_false _ _ _ _ hprec]
      simp [update_stats, nameMatches, hc, hp]
    have hswitch : switch_environment c.variant c.nowStats c.nowLog isWin32 fsExists
        ⟨pre ++ [p]⟩ history =
        (some (generate_commands p isWin32 fsExists),
         ⟨pre ++ [{ p with last_used := some c.nowStats,
                           use_count := p.use_count + 1 }]⟩,
         log_switch c.variant c.nowLog history) := by
      unfold switch_environment
      rw [hget]
      simp only [hupd]
    obtain ⟨key1, key2⟩ := ih
      { p with last_used := some c.nowStats, use_count := p.use_count + 1 }
      (log_switch c.variant c.nowLog history)
      (by simpa using hp)
      (fun k hk => hcalls k (by simp [hk]))
    constructor
    · rw [run_switches, hswitch]
      simpa [apply_calls] using key1
    · intro r hr
      rw [run_switches, hswitch] at hr
      simp only [List.mem_cons] at hr
      rcases hr with h | h
      · simp [h]
      · exact key2 r h

/-- C3: on a store whose only case-insensitive match for the target name
is a freshly added profile with use_count 0, running N switch calls under
any case variants of the name succeeds every time and leaves the profile
with use_count N and last_used equal to the Nth statistics
timestamp. -/
theorem C3_repeated_switch (isWin32 : Bool) (fsExists : String → Bool)
    (name : String) (pre : List Environment) (p : Environment)
    (history : List HistoryEntry) (calls : List SwitchCall) (c : SwitchCall)
    (hpre : ∀ e ∈ pre, pyLower e.name ≠ pyLower name)
    (hp : pyLower p.name = pyLower name)
    (hfresh : p.use_count = 0)
    (hcalls : ∀ k ∈ calls, pyLower k.variant = pyLower name)
    (hlast : calls.getLast? = some c) :
    ∃ q,
      get_environment name
        (run_switches isWin32 fsExists calls (⟨pre ++ [p]⟩, history)).2.1 =
        some q ∧
      q.use_count = calls.length ∧ q.last_used = some c.nowStats ∧
      ∀ r ∈ (run_switches isWin32 fsExists calls (⟨pre ++ [p]⟩, history)).1,
        r.isSome := by
  obtain ⟨hstore, hres⟩ :=
    run_switches_store isWin32 fsExists name pre hpre calls p history hp hcalls
  refine ⟨apply_calls p calls, ?_, ?_, apply_calls_last_used c calls p hlast, hres⟩
  · rw [hstore]
    unfold get_environment
    rw [show (⟨pre ++ [apply_calls p calls]⟩ : EnvData).environments =
        pre ++ [apply_calls p calls] from rfl,
      find?_append_of_forall_false (fun e he => by
        simp only [nameMatches, beq_eq_false_iff_ne]
        exact hpre e he)]
    simp [List.find?_cons, nameMatches, apply_calls_name, hp]
  · rw [apply_calls_use_count, hfresh]
    omega

/-- C3 instantiated: two switches, with variants demo and DEMO, on a
freshly added profile Demo. -/
theorem C3_witness :
    ∃ q,
      get_environment "Demo"
        (run_switches false (fun _ => false)
          [⟨"demo", "s1", "l1"⟩, ⟨"DEMO", "s2", "l2"⟩]
          (⟨[{ name := "Demo", project_path := "/p", python_env := none,
               node_version := none, env_vars := [], shell_commands := [],
               description := "", created := "t0", last_used := none,
               use_count := 0 }]⟩, [])).2.1 = some q ∧
      q.use_count = 2 ∧ q.last_used = some "s2" ∧
      ∀ r ∈ (run_switches false (fun _ => false)
          [⟨"demo", "s1", "l1"⟩, ⟨"DEMO", "s2", "l2"⟩]
          (⟨[{ name := "Demo", project_path := "/p", python_env := none,
               node_version := none, env_vars := [], shell_commands := [],
               description := "", created := "t0", last_used := none,
               use_count := 0 }]⟩, [])).1, r.isSome :=
  C3_repeated_switch false (fun _ => false) "Demo" []
    { name := "Demo", project_path := "/p", python_env := none,
      node_version := none, env_vars := [], shell_commands := [],
      description := "", created := "t0", last_used := none, use_count := 0 }
    [] [⟨"demo", "s1", "l1"⟩, ⟨"DEMO", "s2", "l2"⟩] ⟨"DEMO", "s2", "l2"⟩
    (by simp) (by decide) rfl (by decide) rfl

/-- The slice l[-100:] keeps the last 100 elements. -/
theorem pySliceFrom_neg100 {α : Type} (l : List α) :
    pySliceFrom (-100) l = l.drop (l.length - 100) := by
  unfold pySliceFrom
  rw [if_pos (by norm_num)]
  rfl

/-- Capping a list to its last k elements before appending does not
change the last k elements of the concatenation. -/
theorem cap_drop_append {α : Type} (k : Nat) (l l₂ : List α) :
    (l.drop (l.length - k) ++ l₂).drop
        ((l.drop (l.length - k) ++ l₂).length - k) =
      (l ++ l₂).drop ((l ++ l₂).length - k) := by
  rcases le_or_lt l.length k with hle | hlt
  · rw [Nat.sub_eq_zero_of_le hle, List.drop_zero]
  · have hA : (l.drop (l.length - k)).length = k := by
      rw [List.length_drop]; omega
    rw [List.drop_append_eq_append_drop, List.drop_append_eq_append_drop,
      List.drop_drop, hA, List.length_append, List.length_append, hA]
    congr 1
    · congr 1
      omega
    · congr 1
      omega

/-- Folding log_switch over a sequence of entries, starting from any log
within the cap, leaves exactly the last 100 of the initial log followed
by the appended entries. -/
theorem foldl_log_switch (entries : List HistoryEntry) :
    ∀ h₀ : List HistoryEntry, h₀.length ≤ 100 →
      entries.foldl (fun h en => log_switch en.environment en.timestamp h) h₀ =
        (h₀ ++ entries).drop ((h₀ ++ entries).length - 100) := by
  induction entries with
  | nil =>
    intro h₀ hle
    simp [Nat.sub_eq_zero_of_le hle]
  | cons en es ih =>
    intro h₀ hle
    have hstep : log_switch en.environment en.timestamp h₀ =
        (h₀ ++ [en]).drop ((h₀ ++ [en]).length - 100) :=
      pySliceFrom_neg100 (h₀ ++ [en])
    rw [List.foldl_cons, hstep]
    have hle' : ((h₀ ++ [en]).drop ((h₀ ++ [en]).length - 100)).length ≤ 100 := by
      rw [List.length_drop]; omega
    rw [ih _ hle', cap_drop_append 100 (h₀ ++ [en]) es]
    simp

/-- C4: the history log produced by any sequence of switch loggings from
the empty log holds at most 100 entries, and after exactly 150 loggings
it holds precisely the entries of the last 100 calls, oldest first. -/
theorem C4_history_cap (entries : List HistoryEntry) :
    (entries.foldl (fun h en => log_switch en.environment en.timestamp h)
        []).length ≤ 100 ∧
    (entries.length = 150 →
      entries.foldl (fun h en => log_switch en.environment en.timestamp h) [] =
        entries.drop 50) := by
  have hfold := foldl_log_switch entries [] (by simp)
  rw [List.nil_append] at hfold
  constructor
  · rw [hfold, List.length_drop]
    omega
  · intro h150
    rw [hfold, h150]

/-- C4 instantiated: 150 concrete loggings leave the last 100 entries. -/
theorem C4_witness :
    (((List.range 150).map (fun i =>
        ({ environment := toString i, timestamp := toString i } :
          HistoryEntry))).foldl
      (fun h en => log_switch en.environment en.timestamp h) []).length ≤ 100 ∧
    ((List.range 150).map (fun i =>
        ({ environment := toString i, timestamp := toString i } :
          HistoryEntry))).foldl
      (fun h en => log_switch en.environment en.timestamp h) [] =
      ((List.range 150).map (fun i =>
        ({ environment := toString i, timestamp := toString i } :
          HistoryEntry))).drop 50 :=
  ⟨(C4_history_cap _).1, (C4_history_cap _).2 (by simp)⟩

/-- C5 counterexample: the plan for the demo profile holds five lines,
so the claimed four-line output is false on this input. -/
theorem C5_counterexample :
    (generate_commands
      { name := "demo", project_path := "/tmp/demo", python_env := none,
        node_version := none, env_vars := [("DEBUG", "true")],
        shell_commands := ["echo hi"], description := "", created := "t0",
        last_used := none, use_count := 0 } false (fun _ => false)).length ≠ 4 := by
  decide

/-- C5 amended: the plan for the demo profile is exactly the five lines
cd, variables comment, export, commands comment, command, in that order,
with the activation step omitted. -/
theorem C5_demo_plan :
    generate_commands
      { name := "demo", project_path := "/tmp/demo", python_env := none,
        node_version := none, env_vars := [("DEBUG", "true")],
        shell_commands := ["echo hi"], description := "", created := "t0",
        last_used := none, use_count := 0 } false (fun _ => false) =
      ["cd /tmp/demo", "# Set environment variables",
       "export DEBUG=\"true\"", "# Custom commands", "echo hi"] := by
  decide

/-- C6 counterexample: switching to the stored profile Demo under the
variant demo with distinct statistics and logging time readings records
the history entry under the requested spelling demo with the logging
timestamp t2, while the stored last_used becomes the statistics
timestamp t1, so the entry matches neither the stored name nor the
last_used value. -/
theorem C6_counterexample :
    (switch_environment "demo" "t1" "t2" false (fun _ => false)
        ⟨[{ name := "Demo", project_path := "/p", python_env := none,
            node_version := none, env_vars := [], shell_commands := [],
            description := "", created := "t0", last_used := none,
            use_count := 0 }]⟩ []).2.2 =
      [{ environment := "demo", timestamp := "t2" }] ∧
    get_environment "Demo"
      (switch_environment "demo" "t1" "t2" false (fun _ => false)
        ⟨[{ name := "Demo", project_path := "/p", python_env := none,
            node_version := none, env_vars := [], shell_commands := [],
            description := "", created := "t0", last_used := none,
            use_count := 0 }]⟩ []).2.1 =
      some { name := "Demo", project_path := "/p", python_env := none,
             node_version := none, env_vars := [], shell_commands := [],
             description := "", created := "t0", last_used := some "t1",
             use_count := 1 } ∧
    ("t2" : String) ≠ "t1" ∧ ("demo" : String) ≠ "Demo" := by
  refine ⟨?_, ?_, ?_, ?_⟩ <;> decide

/-- C6 amended: one switch call on an existing profile sets last_used to
the statistics time reading, increments use_count, and appends exactly
one history entry recording the requested name as supplied by the caller
with the separate logging time reading. -/
theorem C6_single_switch (variant nowStats nowLog : String) (isWin32 : Bool)
    (fsExists : String → Bool) (pre post : List Environment) (p : Environment)
    (history : List HistoryEntry)
    (hpre : ∀ e ∈ pre, pyLower e.name ≠ pyLower variant)
    (hp : pyLower p.name = pyLower variant)
    (hlen : history.length ≤ 99) :
    switch_environment variant nowStats nowLog isWin32 fsExists
        ⟨pre ++ p :: post⟩ history =
      (some (generate_commands p isWin32 fsExists),
       ⟨pre ++ { p with last_used := some nowStats,
                        use_count := p.use_count + 1 } :: post⟩,
       history ++ [{ environment := variant, timestamp := nowLog }]) := by
  have hprec : ∀ e ∈ pre, nameMatches variant e = false := fun e he => by
    simp only [nameMatches, beq_eq_false_iff_ne]
    exact hpre e he
  have hget : get_environment variant ⟨pre ++ p :: post⟩ = some p := by
    unfold get_environment
    rw [show (⟨pre ++ p :: post⟩ : EnvData).environments = pre ++ p :: post
        from rfl, find?_append_of_forall_false hprec]
    simp [List.find?_cons, nameMatches, hp]
  have hupd : update_stats variant nowStats (pre ++ p :: post) =
      pre ++ { p with last_used := some nowStats,
                      use_count := p.use_count + 1 } :: post := by
    rw [update_stats_append_of_forall_false _ _ _ _ hprec]
    simp [update_stats, nameMatches, hp]
  have hlog : log_switch variant nowLog history =
      history ++ [{ environment := variant, timestamp := nowLog }] := by
    rw [show log_switch variant nowLog history =
        pySliceFrom (-100)
          (history ++ [{ environment := variant, timestamp := nowLog }])
        from rfl, pySliceFrom_neg100]
    have hz : (history ++
        [({ environment := variant, timestamp := nowLog } :
          HistoryEntry)]).length - 100 = 0 := by
      rw [List.length_append]
      simp
      omega
    rw [hz, List.drop_zero]
  unfold switch_environment
  rw [hget]
  simp only [hupd, hlog]

/-- C6 amended, instantiated at one stored profile and concrete times. -/
theorem C6_witness :
    switch_environment "demo" "t1" "t2" false (fun _ => false)
        ⟨[{ name := "Demo", project_path := "/p", python_env := none,
            node_version := none, env_vars := [], shell_commands := [],
            description := "", created := "t0", last_used := none,
            use_count := 0 }]⟩ [] =
      (some (generate_commands
        { name := "Demo", project_path := "/p", python_env := none,
          node_version := none, env_vars := [], shell_commands := [],
          description := "", created := "t0", last_used := none,
          use_count := 0 } false (fun _ => false)),
       ⟨[{ name := "Demo", project_path := "/p", python_env := none,
           node_version := none, env_vars := [], shell_commands := [],
           description := "", created := "t0", last_used := some "t1",
           use_count := 1 }]⟩,
       [{ environment := "demo", timestamp := "t2" }]) :=
  C6_single_switch "demo" "t1" "t2" false (fun _ => false) [] []
    { name := "Demo", project_path := "/p", python_env := none,
      node_version := none, env_vars := [], shell_commands := [],
      description := "", created := "t0", last_used := none, use_count := 0 }
    [] (by simp) (by decide) (by decide)

/-- C7 counterexample: with limit 0 and a one-entry log, getHistory
returns the whole log rather than the most recent zero entries. -/
theorem C7_counterexample :
    get_history 0 [{ environment := "a", timestamp := "t" }] =
      [{ environment := "a", timestamp := "t" }] ∧
    get_history 0 [{ environment := "a", timestamp := "t" }] ≠ [] := by
  constructor <;> decide

/-- C7 amended: for every positive limit, getHistory returns the tail of
the log consisting of its last min(limit, length) entries, oldest first. -/
theorem C7_get_history_pos (limit : Int) (log : List HistoryEntry)
    (hpos : 1 ≤ limit) :
    get_history limit log = log.drop (log.length - limit.toNat) ∧
    (get_history limit log).length = min limit.toNat log.length := by
  have hneg : -limit < 0 := by omega
  have h1 : get_history limit log = log.drop (log.length - limit.toNat) := by
    unfold get_history pySliceFrom
    rw [if_pos hneg, neg_neg]
  refine ⟨h1, ?_⟩
  rw [h1, List.length_drop]
  omega

/-- C7 amended, instantiated: limit 3 on a five-entry log returns the
last three entries. -/
theorem C7_witness :
    get_history 3
      [{ environment := "a", timestamp := "1" },
       { environment := "b", timestamp := "2" },
       { environment := "c", timestamp := "3" },
       { environment := "d", timestamp := "4" },
       { environment := "e", timestamp := "5" }] =
      [{ environment := "c", timestamp := "3" },
       { environment := "d", timestamp := "4" },
       { environment := "e", timestamp := "5" }] ∧
    (get_history 3
      [{ environment := "a", timestamp := "1" },
       { environment := "b", timestamp := "2" },
       { environment := "c", timestamp := "3" },
       { environment := "d", timestamp := "4" },
       { environment := "e", timestamp := "5" }]).length = 3 :=
  C7_get_history_pos 3
    [{ environment := "a", timestamp := "1" },
     { environment := "b", timestamp := "2" },
     { environment := "c", timestamp := "3" },
     { environment := "d", timestamp := "4" },
     { environment := "e", timestamp := "5" }] (by decide)

/-- The deletion loop walks past a prefix where no name matches. -/
theorem removeFirstMatch_append_of_forall_false (name : String)
    (l₁ l₂ : List Environment) (h : ∀ e ∈ l₁, nameMatches name e = false) :
    removeFirstMatch name (l₁ ++ l₂) =
      (removeFirstMatch name l₂).map (fun l => l₁ ++ l) := by
  induction l₁ with
  | nil => simp
  | cons a l ih =>
    have ha : nameMatches name a = false := h a (by simp)
    simp only [List.cons_append, removeFirstMatch, ha]
    rw [if_neg (by simp [ha]), List.append_eq,
      ih (fun e he => h e (by simp [he]))]
    cases removeFirstMatch name l₂ <;> simp

/-- The deletion loop finds nothing when no name matches. -/
theorem removeFirstMatch_eq_none (name : String) (l : List Environment)
    (h : ∀ e ∈ l, nameMatches name e = false) :
    removeFirstMatch name l = none := by
  induction l with
  | nil => rfl
  | cons a tl ih =>
    have ha : nameMatches name a = false := h a (by simp)
    simp only [removeFirstMatch]
    rw [if_neg (by simp [ha]), ih (fun e he => h e (by simp [he]))]
    rfl

/-- C8: deleting an existing name removes exactly the one profile whose
case-folded name matches and keeps every other profile with all its
fields; deleting a name with no case-insensitive match reports failure
and leaves the persisted collection untouched. -/
theorem C8_delete (name : String) :
    (∀ (pre post : List Environment) (target : Environment),
      (∀ e ∈ pre, pyLower e.name ≠ pyLower name) →
      pyLower target.name = pyLower name →
      delete_environment name ⟨pre ++ target :: post⟩ =
        (true, ⟨pre ++ post⟩)) ∧
    (∀ data : EnvData,
      (∀ e ∈ data.environments, pyLower e.name ≠ pyLower name) →
      delete_environment name data = (false, data)) := by
  constructor
  · intro pre post target hpre htarget
    have hprec : ∀ e ∈ pre, nameMatches name e = false := fun e he => by
      simp only [nameMatches, beq_eq_false_iff_ne]
      exact hpre e he
    have hhead : removeFirstMatch name (target :: post) = some post := by
      simp [removeFirstMatch, nameMatches, htarget]
    unfold delete_environment
    rw [show (⟨pre ++ target :: post⟩ : EnvData).environments =
        pre ++ target :: post from rfl,
      removeFirstMatch_append_of_forall_false name pre _ hprec, hhead]
    rfl
  · intro data hforall
    have hnone : removeFirstMatch name data.environments = none :=
      removeFirstMatch_eq_none name data.environments (fun e he => by
        simp only [nameMatches, beq_eq_false_iff_ne]
        exact hforall e he)
    unfold delete_environment
    rw [hnone]

/-- C8 instantiated: deleting demo removes the stored Demo and keeps the
other profile; deleting an absent name fails and changes nothing. -/
theorem C8_witness :
    delete_environment "demo"
      ⟨[{ name := "Keep", project_path := "/k", python_env := none,
          node_version := none, env_vars := [], shell_commands := [],
          description := "", created := "t0", last_used := none,
          use_count := 0 },
        { name := "Demo", project_path := "/d", python_env := none,
          node_version := none, env_vars := [], shell_commands := [],
          description := "", created := "t1", last_used := none,
          use_count := 0 }]⟩ =
      (true,
       ⟨[{ name := "Keep", project_path := "/k", python_env := none,
           node_version := none, env_vars := [], shell_commands := [],
           description := "", created := "t0", last_used := none,
           use_count := 0 }]⟩) ∧
    delete_environment "nope"
      ⟨[{ name := "Keep", project_path := "/k", python_env := none,
          node_version := none, env_vars := [], shell_commands := [],
          description := "", created := "t0", last_used := none,
          use_count := 0 }]⟩ =
      (false,
       ⟨[{ name := "Keep", project_path := "/k", python_env := none,
           node_version := none, env_vars := [], shell_commands := [],
           description := "", created := "t0", last_used := none,
           use_count := 0 }]⟩) :=
  ⟨(C8_delete "demo").1
    [{ name := "Keep", project_path := "/k", python_env := none,
       node_version := none, env_vars := [], shell_commands := [],
       description := "", created := "t0", last_used := none,
       use_count := 0 }] []
    { name := "Demo", project_path := "/d", python_env := none,
      node_version := none, env_vars := [], shell_commands := [],
      description := "", created := "t1", last_used := none, use_count := 0 }
    (by decide) (by decide),
   (C8_delete "nope").2
    ⟨[{ name := "Keep", project_path := "/k", python_env := none,
        node_version := none, env_vars := [], shell_commands := [],
        description := "", created := "t0", last_used := none,
        use_count := 0 }]⟩ (by decide)⟩

/-- C9: when the interpreter environment path does not exist, or the
platform-resolved activation script does not exist, planning emits no
activation comment and no activation invocation, with no error: the
activation section is empty and the remaining sections are produced
unchanged. -/
theorem C9_no_activation (env : Environment) (isWin32 : Bool)
    (fsExists : String → Bool) (p : String)
    (hp : env.python_env = some p)
    (hmiss : fsExists p = false ∨
      fsExists (activation_script p isWin32 fsExists) = false) :
    activation_lines env isWin32 fsExists = [] ∧
    generate_commands env isWin32 fsExists =
      ("cd " ++ env.project_path) ::
        ((if env.env_vars.isEmpty then []
          else "# Set environment variables" ::
            env.env_vars.map (export_line isWin32)) ++
         (if env.shell_commands.isEmpty then []
          else "# Custom commands" :: env.shell_commands)) := by
  have hact : activation_lines env isWin32 fsExists = [] := by
    unfold activation_lines
    rw [hp]
    rcases hmiss with h | h
    · by_cases hq : p.isEmpty
      · simp [hq]
      · simp [hq, h]
    · by_cases hq : p.isEmpty
      · simp [hq]
      · by_cases h2 : fsExists p = true
        · simp [hq, h2, h]
        · simp [hq, h2]
  refine ⟨hact, ?_⟩
  unfold generate_commands
  rw [hact, List.nil_append]

/-- C9 instantiated: a profile pointing at a missing virtual environment
still yields its directory change, exports and commands. -/
theorem C9_witness :
    activation_lines
      { name := "demo", project_path := "/tmp/demo",
        python_env := some "/tmp/venv", node_version := none,
        env_vars := [("A", "b")], shell_commands := ["run"],
        description := "", created := "t0", last_used := none,
        use_count := 0 } false (fun _ => false) = [] ∧
    generate_commands
      { name := "demo", project_path := "/tmp/demo",
        python_env := some "/tmp/venv", node_version := none,
        env_vars := [("A", "b")], shell_commands := ["run"],
        description := "", created := "t0", last_used := none,
        use_count := 0 } false (fun _ => false) =
      "cd /tmp/demo" ::
        ((if ([("A", "b")] : List (String × String)).isEmpty then []
          else "# Set environment variables" ::
            ([("A", "b")] : List (String × String)).map (export_line false)) ++
         (if (["run"] : List String).isEmpty then []
          else "# Custom commands" :: ["run"])) :=
  C9_no_activation
    { name := "demo", project_path := "/tmp/demo",
      python_env := some "/tmp/venv", node_version := none,
      env_vars := [("A", "b")], shell_commands := ["run"],
      description := "", created := "t0", last_used := none, use_count := 0 }
    false (fun _ => false) "/tmp/venv" rfl (Or.inl rfl)

/-- The first case-insensitive match in a duplicate-free collection is
the stored record itself. -/
theorem find?_of_pairwise (variant : String) (l : List Environment)
    (p : Environment)
    (hu : l.Pairwise (fun a b => pyLower a.name ≠ pyLower b.name))
    (hmem : p ∈ l) (hvar : pyLower variant = pyLower p.name) :
    l.find? (nameMatches variant) = some p := by
  induction l with
  | nil => cases hmem
  | cons a tl ih =>
    rcases List.mem_cons.mp hmem with rfl | hmem'
    · simp [List.find?_cons, nameMatches, hvar]
    · have hne : pyLower a.name ≠ pyLower p.name :=
        (List.pairwise_cons.mp hu).1 p hmem'
      have hfa : nameMatches variant a = false := by
        simp only [nameMatches, hvar, beq_eq_false_iff_ne]
        exact hne
      simp only [List.find?_cons, hfa]
      exact ih (List.pairwise_cons.mp hu).2 hmem'

/-- C10: in a store satisfying the case-insensitive uniqueness
invariant, getProfile under any case variant returns the stored record
itself, unchanged; in particular the returned name keeps the exact
casing given at creation, and the lookup produces no new store state. -/
theorem C10_get_returns_stored (variant : String) (data : EnvData)
    (p : Environment)
    (huniq : data.environments.Pairwise
      (fun a b => pyLower a.name ≠ pyLower b.name))
    (hmem : p ∈ data.environments)
    (hvar : pyLower variant = pyLower p.name) :
    get_environment variant data = some p :=
  find?_of_pairwise variant data.environments p huniq hmem hvar

/-- C10 instantiated: fetching bETA returns the record stored under the
exact name Beta. -/
theorem C10_witness :
    get_environment "bETA"
      ⟨[{ name := "Alpha", project_path := "/a", python_env := none,
          node_version := none, env_vars := [], shell_commands := [],
          description := "", created := "t0", last_used := none,
          use_count := 0 },
        { name := "Beta", project_path := "/b", python_env := none,
          node_version := none, env_vars := [], shell_commands := [],
          description := "", created := "t1", last_used := none,
          use_count := 3 }]⟩ =
      some { name := "Beta", project_path := "/b", python_env := none,
             node_version := none, env_vars := [], shell_commands := [],
             description := "", created := "t1", last_used := none,
             use_count := 3 } :=
  C10_get_returns_stored "bETA"
    ⟨[{ name := "Alpha", project_path := "/a", python_env := none,
        node_version := none, env_vars := [], shell_commands := [],
        description := "", created := "t0", last_used := none,
        use_count := 0 },
      { name := "Beta", project_path := "/b", python_env := none,
        node_version := none, env_vars := [], shell_commands := [],
        description := "", created := "t1", last_used := none,
        use_count := 3 }]⟩
    { name := "Beta", project_path := "/b", python_env := none,
      node_version := none, env_vars := [], shell_commands := [],
      description := "", created := "t1", last_used := none, use_count := 3 }
    (by decide) (by decide) (by decide)

end EnvSwitch
